import Mathlib

/-!
Shallow embedding of the medical-bill extraction pipeline
(repository `ShrushtiVisave_IITB`, package `app`).

Python floats are modelled as rationals (`ℚ`); all concrete values the
claims mention (10.0, 2.0, 20.02, 0.01, 0.15, ...) are exactly
representable and far from any binary-float rounding boundary, so the
comparison results coincide with the Python ones.  Byte buffers are
lists of byte values (`List Nat`).  External library collaborators
(OpenCV geometry, the network, the OCR and LLM engines) are modelled as
explicit parameters or as the per-page outcome they produce; everything
the repository's own code computes is translated directly.
-/

namespace BillApp

/-- A line item, from `app/models.py` (`BillItem`): `item_name`,
`item_amount`, `item_rate`, `item_quantity`. -/
structure BillItem where
  item_name : String
  item_amount : ℚ
  item_rate : ℚ
  item_quantity : ℚ
deriving DecidableEq, Repr

/-- One page's extraction result, from `app/models.py`
(`PagewiseLineItems`): `page_no`, `page_type`, `bill_items`. -/
structure PageData where
  page_no : String
  page_type : String
  bill_items : List BillItem
deriving DecidableEq, Repr

/-- The data interpolated into the f-string error message built by
`BillValidator.validate_items` (`app/validation.py`): the 1-based item
index, the item name, `expected = item_rate * item_quantity` and the
actual `item_amount`. -/
structure ValidationIssue where
  itemIndex : Nat
  itemName : String
  expected : ℚ
  actual : ℚ
deriving DecidableEq, Repr

/-- Python's built-in `abs` applied to a rational value. -/
def pyAbs (x : ℚ) : ℚ := if x < 0 then -x else x

/-- Loop body of `BillValidator.validate_items`: Python
`for idx, item in enumerate(page_data["bill_items"])`, appending an
error when `abs(expected_amount - actual_amount) > 0.01`. -/
def validateItemsAux : Nat → List BillItem → List ValidationIssue
  | _, [] => []
  | idx, item :: rest =>
    let expected := item.item_rate * item.item_quantity
    let actual := item.item_amount
    if pyAbs (expected - actual) > (0.01 : ℚ) then
      ⟨idx + 1, item.item_name, expected, actual⟩ :: validateItemsAux (idx + 1) rest
    else
      validateItemsAux (idx + 1) rest

/-- `BillValidator.validate_items` from `app/validation.py`. -/
def validate_items (page_data : PageData) : List ValidationIssue :=
  validateItemsAux 0 page_data.bill_items

/-- `ValidationUtils.validate_amount_calculation` from `app/utils.py`:
`expected = rate * quantity; return abs(expected - amount) <= tolerance`.
The Python default `tolerance=0.01` is passed explicitly at every use. -/
def validate_amount_calculation (rate quantity amount tolerance : ℚ) : Bool :=
  let expected := rate * quantity
  decide (pyAbs (expected - amount) ≤ tolerance)

/-- The key used by `BillValidator.detect_duplicates`
(`key = (item["item_name"], item["item_amount"])`). -/
def dupKey (item : BillItem) : String × ℚ :=
  (item.item_name, item.item_amount)

/-- Loop body of `BillValidator.detect_duplicates`: the accumulator is
the pair (keys of `seen_items`, `duplicates`); the Python dict
`seen_items` only ever gains a key the first time it is met, so its key
set is modelled by the list of first-occurrence keys. -/
def dupStep (acc : List (String × ℚ) × List String) (item : BillItem) :
    List (String × ℚ) × List String :=
  if dupKey item ∈ acc.1 then
    (acc.1, acc.2 ++ ["Duplicate: " ++ item.item_name])
  else
    (acc.1 ++ [dupKey item], acc.2)

/-- `BillValidator.detect_duplicates` from `app/validation.py`: nested
loop over pages then over each page's `bill_items`, sharing one
`seen_items` map; returns the list of duplicate messages. -/
def detect_duplicates (all_pages : List PageData) : List String :=
  (all_pages.foldl (fun acc page => page.bill_items.foldl dupStep acc) ([], [])).2

/-- All bill items of a page sequence, in scan order (page order, then
item order inside a page). -/
def pagesItems : List PageData → List BillItem
  | [] => []
  | pg :: rest => pg.bill_items ++ pagesItems rest

/-- Specification-side reading of duplicate detection: an occurrence is
recorded exactly when some earlier occurrence (on the same or a
different page) has the same `(item_name, item_amount)` key; the first
occurrence of a key is never recorded. -/
def laterOccurrences (earlier : List BillItem) : List BillItem → List String
  | [] => []
  | item :: rest =>
    if ∃ e ∈ earlier, dupKey e = dupKey item then
      ("Duplicate: " ++ item.item_name) :: laterOccurrences (earlier ++ [item]) rest
    else
      laterOccurrences (earlier ++ [item]) rest

/-! ### Document classifier (`DocumentUtils.detect_document_type`, `app/utils.py`) -/

/-- The 4-byte PDF signature checked by `content[:4] == b"%PDF"`. -/
def pdfSignature : List Nat := [0x25, 0x50, 0x44, 0x46]

/-- The keys of the `image_signatures` dict in `detect_document_type`:
JPEG, PNG, GIF87a, GIF89a, TIFF little-endian, TIFF big-endian. -/
def imageSignatures : List (List Nat) :=
  [[0xFF, 0xD8, 0xFF],
   [0x89, 0x50, 0x4E, 0x47, 0x0D, 0x0A, 0x1A, 0x0A],
   [0x47, 0x49, 0x46, 0x38, 0x37, 0x61],
   [0x47, 0x49, 0x46, 0x38, 0x39, 0x61],
   [0x49, 0x49, 0x2A, 0x00],
   [0x4D, 0x4D, 0x00, 0x2A]]

/-- Python `content.startswith(signature)`. -/
def bytesStartWith (content sig : List Nat) : Bool :=
  content.take sig.length == sig

/-- `DocumentUtils.detect_document_type`: return `"pdf"` when the first
four bytes equal `%PDF`; otherwise scan the image-signature table and
return `"image"` at the first match (every match returns the same
value, so the scan is an `any`); otherwise raise
`ValueError("Unsupported document type")`, modelled as the error
branch. -/
def detect_document_type (content : List Nat) : Except String String :=
  if content.take 4 == pdfSignature then .ok "pdf"
  else if imageSignatures.any (fun s => bytesStartWith content s) then .ok "image"
  else .error "Unsupported document type"

/-! ### Image normalizer deskew step (`DocumentPreprocessor.enhance_image`,
`app/preprocessing.py`).  The grayscale / denoise / adaptive-threshold
stages are calls into OpenCV; the deskew logic starts from the binarized
image they produce, so the embedding takes the binarized image as input.
OpenCV's geometric primitives (`minAreaRect`'s rectangle fitting,
`warpAffine`) are external collaborators and appear as parameters; the
repository's own control flow around them is translated exactly. -/

/-- A single-channel image as a row-major pixel matrix. -/
abbrev GrayImage := List (List Nat)

/-- `coords = np.column_stack(np.where(binary > 0))`: the coordinates of
every pixel with value `> 0`, in row-major scan order. -/
def foregroundCoords (binary : GrayImage) : List (Nat × Nat) :=
  (binary.enum.map (fun rrow =>
    rrow.2.enum.filterMap (fun cpix =>
      if cpix.2 > 0 then some (rrow.1, cpix.1) else none))).flatten

/-- `cv2.minAreaRect(coords)[-1]`: OpenCV raises `cv2.error` on an empty
point set (modelled as `none`); on a nonempty set it returns a rotated
rectangle whose angle is abstracted by the parameter `angleOf` (the
rectangle-fitting geometry lives in the external library). -/
def minAreaRectAngle (angleOf : List (Nat × Nat) → ℚ) (coords : List (Nat × Nat)) :
    Option ℚ :=
  if coords = [] then none else some (angleOf coords)

/-- Angle normalization in `enhance_image`:
`if angle < -45: angle = -(90 + angle) else: angle = -angle`. -/
def normalizeAngle (raw : ℚ) : ℚ :=
  if raw < -45 then -(90 + raw) else -raw

/-- The deskew portion of `DocumentPreprocessor.enhance_image` applied to
the binarized image: compute the foreground coordinates, take the
minimum-area-rectangle angle (failing like OpenCV does on an empty
coordinate set), normalize it, and rotate via `warpAffine` (abstracted
as `warp`) only when `abs(angle) > 0.5`. -/
def deskew (angleOf : List (Nat × Nat) → ℚ) (warp : GrayImage → ℚ → GrayImage)
    (binary : GrayImage) : Option GrayImage :=
  match minAreaRectAngle angleOf (foregroundCoords binary) with
  | none => none
  | some raw =>
    let angle := normalizeAngle raw
    if pyAbs angle > (0.5 : ℚ) then some (warp binary angle) else some binary

/-! ### Fraud heuristic detector (`DocumentPreprocessor.detect_fraud`,
`app/preprocessing.py`).  The colour-space conversion and the
edge/contour extraction are OpenCV calls; the embedding takes the HSV
pixel list the conversion yields and the contour count `findContours`
returns, and translates the repository's thresholding logic over them. -/

/-- What `detect_fraud` observes about one page through OpenCV: the HSV
pixels of `cv2.cvtColor(img, COLOR_BGR2HSV)` and the length of the
contour list returned by `findContours` after `Canny(gray, 50, 150)`. -/
structure FraudInput where
  hsvPixels : List (Nat × Nat × Nat)
  contourCount : Nat
deriving DecidableEq, Repr

/-- Membership in `cv2.inRange(hsv, (0, 0, 200), (180, 30, 255))`: all
bounds inclusive. -/
def isNearWhite (p : Nat × Nat × Nat) : Bool :=
  decide (0 ≤ p.1 ∧ p.1 ≤ 180 ∧ 0 ≤ p.2.1 ∧ p.2.1 ≤ 30 ∧ 200 ≤ p.2.2 ∧ p.2.2 ≤ 255)

/-- `white_ratio = np.sum(white_mask > 0) / white_mask.size`. -/
def whiteRatio (img : FraudInput) : ℚ :=
  ((img.hsvPixels.filter isNearWhite).length : ℚ) / (img.hsvPixels.length : ℚ)

/-- `DocumentPreprocessor.detect_fraud`: start from an empty flag list,
append the white-patch flag when the near-white ratio exceeds 0.15,
then append the font-inconsistency flag when the contour count exceeds
1000. -/
def detect_fraud (img : FraudInput) : List String :=
  (if whiteRatio img > (0.15 : ℚ) then ["Excessive white patches detected"] else [])
    ++ (if img.contourCount > 1000 then ["Potential font inconsistency"] else [])

/-! ### Request pipeline (`extract_bill_data`, `app/main.py`, and the
extraction / error plumbing in `app/extraction.py` and `app/utils.py`). -/

/-- A Python exception as observed by `ErrorUtils.format_error_response`:
`type(error).__name__` and `str(error)`. -/
structure PyErr where
  etype : String
  message : String
deriving DecidableEq, Repr

/-- What one iteration of the page loop in `extract_bill_data` receives
from the external collaborators: the fraud flags of the page, the token
usage `(input_tokens, output_tokens)` the LLM API reports for the
page's extraction call, and the outcome of
`BillExtractor.extract_from_text` — `ok page_data` when the response
(after code-fence stripping) parses as JSON, `error e` when
`json.loads` raises. -/
structure PageCtx where
  fraudFlags : List String
  usage : Nat × Nat
  extraction : Except PyErr PageData
deriving Repr

/-- Cumulative token counters of `BillExtractor` (`self.total_tokens`,
`self.input_tokens`, `self.output_tokens`). -/
structure Counters where
  total_tokens : Nat
  input_tokens : Nat
  output_tokens : Nat
deriving DecidableEq, Repr

/-- `BillExtractor.__init__`: all three counters start at zero; a fresh
extractor is constructed inside `extract_bill_data` for each request. -/
def initCounters : Counters := ⟨0, 0, 0⟩

/-- The usage-tracking lines of `extract_from_text`:
`input_tokens += in; output_tokens += out; total_tokens += in + out`. -/
def trackUsage (c : Counters) (delta : Nat × Nat) : Counters :=
  ⟨c.total_tokens + (delta.1 + delta.2),
   c.input_tokens + delta.1,
   c.output_tokens + delta.2⟩

/-- `token_usage` field of the response (`TokenUsage` model). -/
structure TokenUsage where
  total_tokens : Nat
  input_tokens : Nat
  output_tokens : Nat
deriving DecidableEq, Repr

/-- `data` field of the response (`BillData` model). -/
structure BillData where
  pagewise_line_items : List PageData
  total_item_count : Nat
deriving DecidableEq, Repr

/-- The response payload: the `BillExtractionResponse` model on success,
the dict built by `ErrorUtils.format_error_response` on failure (its
`error` member is `none` on the success shape, which has no error
field). -/
structure Response where
  is_success : Bool
  error : Option PyErr
  token_usage : TokenUsage
  data : BillData
deriving DecidableEq, Repr

/-- `ErrorUtils.format_error_response` from `app/utils.py`: the exact
failure shape `{is_success: False, error: {type, message},
token_usage: {0,0,0}, data: {pagewise_line_items: [],
total_item_count: 0}}`. -/
def format_error_response (e : PyErr) : Response :=
  { is_success := false
    error := some ⟨e.etype, e.message⟩
    token_usage := ⟨0, 0, 0⟩
    data := { pagewise_line_items := [], total_item_count := 0 } }

/-- Whether a collaborator call outcome is a success (no exception). -/
def exIsOk {ε α : Type} : Except ε α → Bool
  | .ok _ => true
  | .error _ => false

/-- The successful value of a collaborator call outcome, when any. -/
def exOkValue {ε α : Type} : Except ε α → Option α
  | .ok a => some a
  | .error _ => none

/-- The page loop of `extract_bill_data`: pages are processed in order;
a raised `json.loads` exception aborts the loop at the failing page and
propagates (so no per-page isolation happens); on success the loop
yields `all_page_data` in original page order.  The fraud flags and the
per-page validation issues are only logged and do not influence the
loop. -/
def processPages : List PageCtx → Except PyErr (List PageData)
  | [] => .ok []
  | pc :: rest =>
    match pc.extraction with
    | .error e => .error e
    | .ok pd =>
      match processPages rest with
      | .error e => .error e
      | .ok rest_data => .ok (pd :: rest_data)

/-- `extract_bill_data` from `app/main.py`, from the page loop on: on
any exception the top-level handler returns the payload of
`ErrorUtils.format_error_response`; on success it assembles the
`BillExtractionResponse` with the extractor's cumulative counters and
`total_items = sum(len(page["bill_items"]))`. -/
def extract_bill_data (pages : List PageCtx) : Response :=
  match processPages pages with
  | .error e => format_error_response e
  | .ok all_page_data =>
    let c := (pages.map (fun pc => pc.usage)).foldl trackUsage initCounters
    { is_success := true
      error := none
      token_usage := ⟨c.total_tokens, c.input_tokens, c.output_tokens⟩
      data :=
        { pagewise_line_items := all_page_data
          total_item_count := (all_page_data.map (fun pg => pg.bill_items.length)).sum } }

/-! ### Concrete inputs used by counterexamples and witnesses -/

/-- A first page with one consultation item. -/
def pageOne : PageData := ⟨"1", "Bill Detail", [⟨"Consultation", 500, 500, 1⟩]⟩

/-- A third page with one pharmacy item. -/
def pageThree : PageData := ⟨"3", "Pharmacy", [⟨"Paracetamol", 50, 5, 10⟩]⟩

/-- A page whose extraction call parses. -/
def okCtx (pd : PageData) : PageCtx := ⟨[], (100, 50), .ok pd⟩

/-- A page whose extraction call returns unparsable output: `json.loads`
raises `json.JSONDecodeError`. -/
def parseFailCtx : PageCtx :=
  ⟨[], (100, 50), .error ⟨"JSONDecodeError", "Expecting value"⟩⟩

/-- A binarized page image with no pixel above zero: the foreground
coordinate set of an all-background page. -/
def blankBinary : GrayImage := [[0, 0], [0, 0]]

/-! ### Helper lemmas -/

theorem not_vac_iff (r q a t : ℚ) :
    validate_amount_calculation r q a t = false ↔ pyAbs (r * q - a) > t := by
  simp [validate_amount_calculation, not_le, gt_iff_lt]

theorem mem_validateItemsAux (l : List BillItem) (n : Nat) (iss : ValidationIssue) :
    iss ∈ validateItemsAux n l ↔
      ∃ i item, l.get? i = some item ∧
        pyAbs (item.item_rate * item.item_quantity - item.item_amount) > (0.01 : ℚ) ∧
        iss = ⟨n + i + 1, item.item_name,
               item.item_rate * item.item_quantity, item.item_amount⟩ := by
  induction l generalizing n with
  | nil => simp [validateItemsAux]
  | cons hd tl ih =>
    by_cases h : pyAbs (hd.item_rate * hd.item_quantity - hd.item_amount) > (0.01 : ℚ)
    · rw [validateItemsAux, if_pos h]
      simp only [List.mem_cons, ih]
      constructor
      · rintro (rfl | ⟨i, item, hget, hc, rfl⟩)
        · exact ⟨0, hd, rfl, h, by simp⟩
        · exact ⟨i + 1, item, hget, hc, by
            simp [Nat.add_comm, Nat.add_assoc, Nat.add_left_comm]⟩
      · rintro ⟨i, item, hget, hc, rfl⟩
        match i, hget with
        | 0, hget => exact Or.inl (by cases hget; simp)
        | i + 1, hget =>
          exact Or.inr ⟨i, item, hget, hc, by
            simp [Nat.add_comm, Nat.add_assoc, Nat.add_left_comm]⟩
    · rw [validateItemsAux, if_neg h]
      rw [ih]
      constructor
      · rintro ⟨i, item, hget, hc, rfl⟩
        exact ⟨i + 1, item, hget, hc, by
          simp [Nat.add_comm, Nat.add_assoc, Nat.add_left_comm]⟩
      · rintro ⟨i, item, hget, hc, rfl⟩
        match i, hget with
        | 0, hget => cases hget; exact absurd hc h
        | i + 1, hget =>
          exact ⟨i, item, hget, hc, by
            simp [Nat.add_comm, Nat.add_assoc, Nat.add_left_comm]⟩

theorem length_validateItemsAux (l : List BillItem) (n : Nat) :
    (validateItemsAux n l).length =
      (l.filter (fun item =>
        ! validate_amount_calculation item.item_rate item.item_quantity
            item.item_amount 0.01)).length := by
  induction l generalizing n with
  | nil => rfl
  | cons hd tl ih =>
    by_cases h : pyAbs (hd.item_rate * hd.item_quantity - hd.item_amount) > (0.01 : ℚ)
    · have hb : validate_amount_calculation hd.item_rate hd.item_quantity
          hd.item_amount 0.01 = false := (not_vac_iff _ _ _ _).mpr h
      rw [validateItemsAux, if_pos h, List.filter_cons]
      simp [hb, ih]
    · have hb : validate_amount_calculation hd.item_rate hd.item_quantity
          hd.item_amount 0.01 = true := by
        rcases Bool.eq_false_or_eq_true (validate_amount_calculation hd.item_rate
          hd.item_quantity hd.item_amount 0.01) with ht | hf
        · exact ht
        · exact absurd ((not_vac_iff _ _ _ _).mp hf) h
      rw [validateItemsAux, if_neg h, List.filter_cons]
      simp [hb, ih]

theorem recordsIssue_iff (pd : PageData) (i : Nat) (item : BillItem)
    (hget : pd.bill_items.get? i = some item) :
    (∃ iss ∈ validate_items pd, iss.itemIndex = i + 1) ↔
      pyAbs (item.item_rate * item.item_quantity - item.item_amount) > (0.01 : ℚ) := by
  constructor
  · rintro ⟨iss, hmem, hidx⟩
    rcases (mem_validateItemsAux _ 0 iss).mp hmem with ⟨j, item', hget', hc, rfl⟩
    have hji : j = i := by
      have : 0 + j + 1 = i + 1 := hidx
      omega
    subst hji
    rw [hget] at hget'
    cases hget'
    exact hc
  · intro hc
    exact ⟨⟨i + 1, item.item_name, item.item_rate * item.item_quantity, item.item_amount⟩,
      (mem_validateItemsAux _ 0 _).mpr ⟨i, item, hget, hc, by simp⟩, rfl⟩

/-! ### Claim theorems -/

/-- Claim C3 (amended): per-item arithmetic validation records an issue
for a BillItem exactly when `abs (item_rate * item_quantity -
item_amount) > 0.01`; for the item `{rate 10, quantity 2, amount
20.00}` no issue is recorded; for `{rate 10, quantity 2, amount 20.02}`
exactly one issue is recorded (the 0.02 discrepancy exceeds the 0.01
tolerance) with expected value 20.00 and actual value 20.02; for
`{rate 10, quantity 2, amount 20.03}` exactly one issue is recorded
with expected value 20.00 and actual value 20.03. -/
theorem claim_c3_amended :
    (∀ (pd : PageData) (i : Nat) (item : BillItem),
      pd.bill_items.get? i = some item →
      ((∃ iss ∈ validate_items pd, iss.itemIndex = i + 1) ↔
        pyAbs (item.item_rate * item.item_quantity - item.item_amount) > (0.01 : ℚ)))
    ∧ validate_items ⟨"1", "Bill Detail", [⟨"Test Item", 20.00, 10, 2⟩]⟩ = []
    ∧ validate_items ⟨"1", "Bill Detail", [⟨"Test Item", 20.02, 10, 2⟩]⟩ =
        [⟨1, "Test Item", 20, 20.02⟩]
    ∧ validate_items ⟨"1", "Bill Detail", [⟨"Test Item", 20.03, 10, 2⟩]⟩ =
        [⟨1, "Test Item", 20, 20.03⟩] :=
  ⟨recordsIssue_iff,
   by norm_num [validate_items, validateItemsAux, pyAbs],
   by norm_num [validate_items, validateItemsAux, pyAbs],
   by norm_num [validate_items, validateItemsAux, pyAbs]⟩

/-- Claim C3, the claim as frozen, refuted: it asserts that for the item
`{rate 10, quantity 2, amount 20.02}` no issue is recorded, but the
code compares `abs (20 - 20.02) = 0.02` against the 0.01 tolerance and
records exactly one issue. -/
theorem claim_c3_counterexample :
    validate_items ⟨"1", "Bill Detail", [⟨"Test Item", 20.02, 10, 2⟩]⟩ =
        [⟨1, "Test Item", 20, 20.02⟩]
    ∧ validate_items ⟨"1", "Bill Detail", [⟨"Test Item", 20.02, 10, 2⟩]⟩ ≠ [] :=
  ⟨by norm_num [validate_items, validateItemsAux, pyAbs],
   by norm_num [validate_items, validateItemsAux, pyAbs]⟩

/-- Witness for the amended claim C3 at a concrete input. -/
theorem claim_c3_witness :
    (∃ iss ∈ validate_items ⟨"1", "Bill Detail", [⟨"Test Item", 20.03, 10, 2⟩]⟩,
      iss.itemIndex = 1) ↔
    pyAbs ((10 : ℚ) * 2 - 20.03) > (0.01 : ℚ) :=
  claim_c3_amended.1 ⟨"1", "Bill Detail", [⟨"Test Item", 20.03, 10, 2⟩]⟩ 0
    ⟨"Test Item", 20.03, 10, 2⟩ rfl

/-- Claim C10: the two implementations of arithmetic validation agree —
`BillValidator.validate_items` records an issue for the item at index
`i` exactly when `ValidationUtils.validate_amount_calculation` at the
default tolerance 0.01 returns `False` on its fields, and the number of
issues equals the number of items failing that check. -/
theorem claim_c10 : ∀ pd : PageData,
    (∀ (i : Nat) (item : BillItem),
      pd.bill_items.get? i = some item →
      ((∃ iss ∈ validate_items pd, iss.itemIndex = i + 1) ↔
        validate_amount_calculation item.item_rate item.item_quantity
          item.item_amount 0.01 = false))
    ∧ (validate_items pd).length =
        (pd.bill_items.filter (fun item =>
          ! validate_amount_calculation item.item_rate item.item_quantity
              item.item_amount 0.01)).length := by
  intro pd
  constructor
  · intro i item hget
    rw [not_vac_iff]
    exact recordsIssue_iff pd i item hget
  · exact length_validateItemsAux pd.bill_items 0

/-- Witness for claim C10 at a concrete input. -/
theorem claim_c10_witness :
    (∃ iss ∈ validate_items ⟨"1", "Bill Detail", [⟨"Test Item", 20.02, 10, 2⟩]⟩,
      iss.itemIndex = 1) ↔
    validate_amount_calculation 10 2 20.02 0.01 = false :=
  (claim_c10 ⟨"1", "Bill Detail", [⟨"Test Item", 20.02, 10, 2⟩]⟩).1 0
    ⟨"Test Item", 20.02, 10, 2⟩ rfl

theorem foldl_dupStep_pages (pages : List PageData)
    (acc : List (String × ℚ) × List String) :
    pages.foldl (fun acc page => page.bill_items.foldl dupStep acc) acc =
      (pagesItems pages).foldl dupStep acc := by
  induction pages generalizing acc with
  | nil => rfl
  | cons pg rest ih => simp [pagesItems, List.foldl_append, ih]

theorem foldl_dupStep_eq_laterOccurrences (items : List BillItem) :
    ∀ (seen : List (String × ℚ)) (dups : List String) (earlier : List BillItem),
      (∀ k, k ∈ seen ↔ ∃ e ∈ earlier, dupKey e = k) →
      (items.foldl dupStep (seen, dups)).2 = dups ++ laterOccurrences earlier items := by
  induction items with
  | nil =>
    intro seen dups earlier _
    simp [laterOccurrences]
  | cons item rest ih =>
    intro seen dups earlier hinv
    by_cases h : ∃ e ∈ earlier, dupKey e = dupKey item
    · have hm : dupKey item ∈ seen := (hinv _).mpr h
      have hinv2 : ∀ k, k ∈ seen ↔ ∃ e ∈ earlier ++ [item], dupKey e = k := by
        intro k
        rw [hinv k]
        constructor
        · rintro ⟨e, he, hk⟩
          exact ⟨e, List.mem_append_left _ he, hk⟩
        · rintro ⟨e, he, hk⟩
          rcases List.mem_append.mp he with h1 | h2
          · exact ⟨e, h1, hk⟩
          · rw [List.mem_singleton] at h2
            subst h2
            rw [← hk]
            exact h
      calc (List.foldl dupStep (seen, dups) (item :: rest)).2
          = (List.foldl dupStep (seen, dups ++ ["Duplicate: " ++ item.item_name]) rest).2 := by
            rw [List.foldl_cons]
            congr 1
            simp [dupStep, hm]
        _ = (dups ++ ["Duplicate: " ++ item.item_name])
              ++ laterOccurrences (earlier ++ [item]) rest := ih _ _ _ hinv2
        _ = dups ++ laterOccurrences earlier (item :: rest) := by
            rw [laterOccurrences, if_pos h]
            simp
    · have hm : dupKey item ∉ seen := fun hmem => h ((hinv _).mp hmem)
      have hinv2 : ∀ k, k ∈ seen ++ [dupKey item] ↔ ∃ e ∈ earlier ++ [item], dupKey e = k := by
        intro k
        rw [List.mem_append, List.mem_singleton, hinv k]
        constructor
        · rintro (⟨e, he, hk⟩ | rfl)
          · exact ⟨e, List.mem_append_left _ he, hk⟩
          · exact ⟨item, List.mem_append_right _ (List.mem_singleton_self _), rfl⟩
        · rintro ⟨e, he, hk⟩
          rcases List.mem_append.mp he with h1 | h2
          · exact Or.inl ⟨e, h1, hk⟩
          · rw [List.mem_singleton] at h2
            subst h2
            exact Or.inr hk.symm
      calc (List.foldl dupStep (seen, dups) (item :: rest)).2
          = (List.foldl dupStep (seen ++ [dupKey item], dups) rest).2 := by
            rw [List.foldl_cons]
            congr 1
            simp [dupStep, hm]
        _ = dups ++ laterOccurrences (earlier ++ [item]) rest := ih _ _ _ hinv2
        _ = dups ++ laterOccurrences earlier (item :: rest) := by
            rw [laterOccurrences, if_neg h]

/-- Claim C4: duplicate detection scans pages in order keyed by the
exact pair `(item_name, item_amount)`: an occurrence is recorded as a
duplicate exactly when some earlier occurrence (same or different page)
carries the same key, the first occurrence being canonical; two items
with equal name and equal amount on two different pages produce exactly
one record (for the second occurrence), and two items with the same
name but different amounts produce none. -/
theorem claim_c4 :
    (∀ pages : List PageData,
      detect_duplicates pages = laterOccurrences [] (pagesItems pages))
    ∧ (∀ (it1 it2 : BillItem) (p1 p2 p3 : String),
        dupKey it1 = dupKey it2 →
        detect_duplicates
            [⟨p1, "Bill Detail", [it1]⟩, ⟨p2, "Bill Detail", []⟩, ⟨p3, "Pharmacy", [it2]⟩] =
          ["Duplicate: " ++ it2.item_name])
    ∧ (∀ it1 it2 : BillItem,
        it1.item_name = it2.item_name → it1.item_amount ≠ it2.item_amount →
        detect_duplicates [⟨"1", "Bill Detail", [it1]⟩, ⟨"2", "Pharmacy", [it2]⟩] = []) := by
  refine ⟨?_, ?_, ?_⟩
  · intro pages
    rw [detect_duplicates, foldl_dupStep_pages]
    have hbase : ∀ k : String × ℚ, k ∈ ([] : List (String × ℚ)) ↔
        ∃ e ∈ ([] : List BillItem), dupKey e = k := by simp
    simpa using foldl_dupStep_eq_laterOccurrences (pagesItems pages) [] [] [] hbase
  · intro it1 it2 p1 p2 p3 hkey
    simp [detect_duplicates, dupStep, hkey]
  · intro it1 it2 _ hamount
    have hk : dupKey it2 ≠ dupKey it1 :=
      fun h => hamount (congrArg Prod.snd h).symm
    simp [detect_duplicates, dupStep, hk]

/-- Witness for claim C4 at concrete inputs. -/
theorem claim_c4_witness :
    detect_duplicates
        [⟨"1", "Bill Detail", [⟨"Paracetamol", 50, 5, 10⟩]⟩,
         ⟨"2", "Bill Detail", []⟩,
         ⟨"3", "Pharmacy", [⟨"Paracetamol", 50, 5, 10⟩]⟩] =
      ["Duplicate: Paracetamol"]
    ∧ detect_duplicates
        [⟨"1", "Bill Detail", [⟨"Paracetamol", 50, 5, 10⟩]⟩,
         ⟨"2", "Pharmacy", [⟨"Paracetamol", 60, 6, 10⟩]⟩] = [] :=
  ⟨claim_c4.2.1 ⟨"Paracetamol", 50, 5, 10⟩ ⟨"Paracetamol", 50, 5, 10⟩ "1" "2" "3" rfl,
   claim_c4.2.2 ⟨"Paracetamol", 50, 5, 10⟩ ⟨"Paracetamol", 60, 6, 10⟩ rfl (by decide)⟩

theorem bytesStartWith_iff (content sig : List Nat) :
    bytesStartWith content sig = true ↔ ∃ r, content = sig ++ r := by
  unfold bytesStartWith
  rw [beq_iff_eq]
  constructor
  · intro h
    refine ⟨content.drop sig.length, ?_⟩
    conv_lhs => rw [← List.take_append_drop sig.length content]
    rw [h]
  · rintro ⟨r, rfl⟩
    simp

/-- Claim C5: the classifier returns `pdf` for every buffer starting
with the 4-byte `%PDF` signature; otherwise returns `image` for a
buffer starting with one of the fixed image signatures (JPEG, PNG,
GIF87a, GIF89a, TIFF little/big endian); otherwise fails with the
unsupported-format error. -/
theorem claim_c5 : ∀ content : List Nat,
    ((∃ r, content = pdfSignature ++ r) → detect_document_type content = .ok "pdf")
    ∧ ((¬ ∃ r, content = pdfSignature ++ r) →
        (∃ s ∈ imageSignatures, ∃ r, content = s ++ r) →
        detect_document_type content = .ok "image")
    ∧ ((¬ ∃ r, content = pdfSignature ++ r) →
        (¬ ∃ s ∈ imageSignatures, ∃ r, content = s ++ r) →
        detect_document_type content = .error "Unsupported document type") := by
  intro content
  have hpdf : (content.take 4 == pdfSignature) = true ↔ ∃ r, content = pdfSignature ++ r :=
    bytesStartWith_iff content pdfSignature
  have himg : (imageSignatures.any fun s => bytesStartWith content s) = true ↔
      ∃ s ∈ imageSignatures, ∃ r, content = s ++ r := by
    rw [List.any_eq_true]
    constructor
    · rintro ⟨s, hs, hb⟩
      exact ⟨s, hs, (bytesStartWith_iff content s).mp hb⟩
    · rintro ⟨s, hs, hr⟩
      exact ⟨s, hs, (bytesStartWith_iff content s).mpr hr⟩
  refine ⟨?_, ?_, ?_⟩
  · intro hp
    rw [detect_document_type, if_pos (hpdf.mpr hp)]
  · intro hnp hi
    rw [detect_document_type, if_neg (fun hc => hnp (hpdf.mp hc)),
      if_pos (himg.mpr hi)]
  · intro hnp hni
    rw [detect_document_type, if_neg (fun hc => hnp (hpdf.mp hc)),
      if_neg (fun hc => hni (himg.mp hc))]

/-- Witness for claim C5: a JPEG buffer is classified as an image. -/
theorem claim_c5_witness :
    detect_document_type [0xFF, 0xD8, 0xFF, 0x00] = .ok "image" :=
  (claim_c5 [0xFF, 0xD8, 0xFF, 0x00]).2.1
    (by rintro ⟨r, h⟩; simp [pdfSignature] at h)
    ⟨[0xFF, 0xD8, 0xFF], by decide, [0x00], rfl⟩

/-- Claim C2: the spec requires the deskew step to short-circuit on an
all-background page (empty foreground coordinate set) and return the
binarized image unrotated; the code instead passes the empty coordinate
set straight to `cv2.minAreaRect`, which raises, so on the blank page
the deskew step fails instead of returning the binarized image —
whatever the external geometry and rotation collaborators do. -/
theorem claim_c2_bug :
    ∀ (angleOf : List (Nat × Nat) → ℚ) (warp : GrayImage → ℚ → GrayImage),
      foregroundCoords blankBinary = []
      ∧ deskew angleOf warp blankBinary = none
      ∧ deskew angleOf warp blankBinary ≠ some blankBinary := by
  intro angleOf warp
  refine ⟨rfl, rfl, ?_⟩
  intro h
  rw [show deskew angleOf warp blankBinary = none from rfl] at h
  exact Option.noConfusion h

/-- Claim C6: the deskew angle normalization maps a raw angle below
-45° to `-(90 + angle)` and negates it otherwise, landing in
`(-45, 45]` for the raw range `[-90, 0)` that `cv2.minAreaRect`
produces; whenever the normalized angle lies within the 0.5° no-op
band, the binarized image is returned with no rotation applied. -/
theorem claim_c6 :
    (∀ raw : ℚ, raw < -45 → normalizeAngle raw = -(90 + raw))
    ∧ (∀ raw : ℚ, ¬ raw < -45 → normalizeAngle raw = -raw)
    ∧ (∀ raw : ℚ, -90 ≤ raw → raw < 0 →
        -45 < normalizeAngle raw ∧ normalizeAngle raw ≤ 45)
    ∧ (∀ (angleOf : List (Nat × Nat) → ℚ) (warp : GrayImage → ℚ → GrayImage)
        (binary : GrayImage),
        foregroundCoords binary ≠ [] →
        pyAbs (normalizeAngle (angleOf (foregroundCoords binary))) ≤ (0.5 : ℚ) →
        deskew angleOf warp binary = some binary) := by
  refine ⟨?_, ?_, ?_, ?_⟩
  · intro raw h
    rw [normalizeAngle, if_pos h]
  · intro raw h
    rw [normalizeAngle, if_neg h]
  · intro raw h0 h1
    rw [normalizeAngle]
    by_cases h : raw < -45
    · rw [if_pos h]
      constructor <;> linarith
    · rw [if_neg h]
      push_neg at h
      constructor <;> linarith
  · intro angleOf warp binary hne hsmall
    have h1 : minAreaRectAngle angleOf (foregroundCoords binary) =
        some (angleOf (foregroundCoords binary)) := by
      rw [minAreaRectAngle, if_neg hne]
    unfold deskew
    rw [h1]
    exact if_neg (not_lt.mpr hsmall)

/-- The normalized angle of a raw angle of zero lies inside the 0.5°
no-op band. -/
theorem normalizeAngle_zero_small : pyAbs (normalizeAngle 0) ≤ (0.5 : ℚ) := by
  norm_num [normalizeAngle, pyAbs]

/-- Witness for claim C6 at concrete inputs. -/
theorem claim_c6_witness :
    normalizeAngle (-50) = -(90 + (-50))
    ∧ deskew (fun _ => 0) (fun b _ => b) [[255]] = some [[255]] :=
  ⟨claim_c6.1 (-50) (by decide),
   claim_c6.2.2.2 (fun _ => 0) (fun b _ => b) [[255]] (by decide) normalizeAngle_zero_small⟩

theorem processPages_flags (pages : List PageCtx) (g : PageCtx → List String) :
    processPages (pages.map fun pc => { pc with fraudFlags := g pc }) =
      processPages pages := by
  induction pages with
  | nil => rfl
  | cons pc rest ih =>
    cases hpc : pc.extraction with
    | error e => simp [processPages, hpc, ih]
    | ok pd => simp [processPages, hpc, ih]

/-- Claim C7: the fraud detector emits the white-patch flag exactly when
the near-white pixel ratio exceeds 0.15 and the font-inconsistency flag
exactly when the contour count exceeds 1000; the heuristics are
independent and cumulative (the result is always a sublist of the two
flags), and the flags never influence the pipeline result (a page is
never rejected because of them). -/
theorem claim_c7 : ∀ img : FraudInput,
    ("Excessive white patches detected" ∈ detect_fraud img ↔
      whiteRatio img > (0.15 : ℚ))
    ∧ ("Potential font inconsistency" ∈ detect_fraud img ↔ img.contourCount > 1000)
    ∧ List.Sublist (detect_fraud img)
        ["Excessive white patches detected", "Potential font inconsistency"]
    ∧ (∀ (pages : List PageCtx) (g : PageCtx → List String),
        extract_bill_data (pages.map fun pc => { pc with fraudFlags := g pc }) =
          extract_bill_data pages) := by
  intro img
  have hne : ("Excessive white patches detected" : String) ≠
      "Potential font inconsistency" := by decide
  refine ⟨?_, ?_, ?_, ?_⟩
  · by_cases h1 : whiteRatio img > (0.15 : ℚ) <;>
      by_cases h2 : img.contourCount > 1000 <;>
      simp [detect_fraud, h1, h2, hne]
  · by_cases h1 : whiteRatio img > (0.15 : ℚ) <;>
      by_cases h2 : img.contourCount > 1000 <;>
      simp [detect_fraud, h1, h2, hne.symm]
  · by_cases h1 : whiteRatio img > (0.15 : ℚ) <;>
      by_cases h2 : img.contourCount > 1000 <;>
      simp only [detect_fraud, h1, h2, if_pos, if_neg, ite_true, ite_false,
        List.nil_append, List.append_nil, List.singleton_append]
    · exact List.Sublist.refl _
    · exact List.cons_sublist_cons.mpr (List.nil_sublist _)
    · exact (List.Sublist.refl _).cons _
    · exact List.nil_sublist _
  · intro pages g
    have husage : (pages.map fun pc => { pc with fraudFlags := g pc }).map
        (fun pc => pc.usage) = pages.map (fun pc => pc.usage) := by
      rw [List.map_map]
      rfl
    unfold extract_bill_data
    rw [processPages_flags, husage]

/-- Claim C8: every fatal error caught at the top level — whatever the
exception type and message, including unknown ones — produces exactly
the failure-shaped response: `is_success = false`, the error type and
message, all three token counters zero, an empty `pagewise_line_items`
and `total_item_count = 0`. -/
theorem claim_c8 : ∀ (pages : List PageCtx) (e : PyErr),
    processPages pages = .error e →
    extract_bill_data pages =
      { is_success := false
        error := some ⟨e.etype, e.message⟩
        token_usage := ⟨0, 0, 0⟩
        data := { pagewise_line_items := [], total_item_count := 0 } } := by
  intro pages e h
  unfold extract_bill_data
  rw [h]
  rfl

/-- Witness for claim C8 at a concrete failing request. -/
theorem claim_c8_witness :
    extract_bill_data [⟨[], (7, 3), .error ⟨"ValueError", "Unsupported document type"⟩⟩] =
      { is_success := false
        error := some ⟨"ValueError", "Unsupported document type"⟩
        token_usage := ⟨0, 0, 0⟩
        data := { pagewise_line_items := [], total_item_count := 0 } } :=
  claim_c8 [⟨[], (7, 3), .error ⟨"ValueError", "Unsupported document type"⟩⟩]
    ⟨"ValueError", "Unsupported document type"⟩ rfl

theorem sum_usage_split (deltas : List (Nat × Nat)) :
    (deltas.map (fun d => d.1 + d.2)).sum =
      (deltas.map (fun d => d.1)).sum + (deltas.map (fun d => d.2)).sum := by
  induction deltas with
  | nil => rfl
  | cons d rest ih =>
    simp only [List.map_cons, List.sum_cons, ih]
    omega

theorem foldl_trackUsage (deltas : List (Nat × Nat)) (c : Counters) :
    deltas.foldl trackUsage c =
      ⟨c.total_tokens + (deltas.map (fun d => d.1 + d.2)).sum,
       c.input_tokens + (deltas.map (fun d => d.1)).sum,
       c.output_tokens + (deltas.map (fun d => d.2)).sum⟩ := by
  induction deltas generalizing c with
  | nil => simp
  | cons d rest ih =>
    rw [List.foldl_cons, ih]
    simp only [trackUsage, List.map_cons, List.sum_cons, Counters.mk.injEq]
    refine ⟨?_, ?_, ?_⟩ <;> omega

/-- Claim C9: the usage counters start at zero for each request and are
updated additively, so after any sequence of extraction calls the input
counter is the sum of the input deltas, the output counter the sum of
the output deltas, and the total equals input plus output; two pages
each contributing `{input: 100, output: 50}` yield `{total_tokens: 300,
input_tokens: 200, output_tokens: 100}`. -/
theorem claim_c9 :
    (∀ deltas : List (Nat × Nat),
      (deltas.foldl trackUsage initCounters).input_tokens =
          (deltas.map (fun d => d.1)).sum
      ∧ (deltas.foldl trackUsage initCounters).output_tokens =
          (deltas.map (fun d => d.2)).sum
      ∧ (deltas.foldl trackUsage initCounters).total_tokens =
          (deltas.foldl trackUsage initCounters).input_tokens +
            (deltas.foldl trackUsage initCounters).output_tokens)
    ∧ ([(100, 50), (100, 50)] : List (Nat × Nat)).foldl trackUsage initCounters =
        ⟨300, 200, 100⟩ := by
  constructor
  · intro deltas
    simp only [foldl_trackUsage, initCounters]
    refine ⟨Nat.zero_add _, Nat.zero_add _, ?_⟩
    rw [sum_usage_split]
    omega
  · rfl

theorem exIsOk_def {ε α : Type} (x : Except ε α) :
    exIsOk x = true ↔ ∃ a, x = .ok a := by
  cases x <;> simp [exIsOk]

theorem processPages_all_ok (pages : List PageCtx)
    (h : ∀ pc ∈ pages, exIsOk pc.extraction = true) :
    processPages pages = .ok (pages.filterMap fun pc => exOkValue pc.extraction) := by
  induction pages with
  | nil => rfl
  | cons pc rest ih =>
    have hpc := h pc (List.mem_cons_self pc rest)
    cases hx : pc.extraction with
    | error e =>
      rw [hx] at hpc
      simp [exIsOk] at hpc
    | ok pd =>
      have hrest := ih (fun q hq => h q (List.mem_cons_of_mem _ hq))
      simp only [processPages, hx, hrest, List.filterMap_cons, exOkValue]

theorem processPages_error_mem (pages : List PageCtx) :
    (∃ pc ∈ pages, exIsOk pc.extraction = false) →
    ∃ e, processPages pages = .error e := by
  induction pages with
  | nil =>
    rintro ⟨pc, h, _⟩
    simp at h
  | cons pc rest ih =>
    rintro ⟨q, hq, hbad⟩
    cases hx : pc.extraction with
    | error e => exact ⟨e, by simp [processPages, hx]⟩
    | ok pd =>
      rcases List.mem_cons.mp hq with rfl | hmem
      · rw [hx] at hbad
        simp [exIsOk] at hbad
      · rcases ih ⟨q, hmem, hbad⟩ with ⟨e, he⟩
        exact ⟨e, by simp [processPages, hx, he]⟩

/-- Claim C1 (amended): a parse failure on any page is not isolated —
the exception propagates out of the page loop and the whole request
fails, the response carrying no PageResults at all; only when every
page's extraction output parses does the final result contain the
PageResults of the pages, in original page order. -/
theorem claim_c1_amended :
    (∀ pages : List PageCtx,
      (∃ pc ∈ pages, exIsOk pc.extraction = false) →
      (extract_bill_data pages).is_success = false
      ∧ (extract_bill_data pages).data.pagewise_line_items = [])
    ∧ (∀ pages : List PageCtx,
      (∀ pc ∈ pages, exIsOk pc.extraction = true) →
      (extract_bill_data pages).is_success = true
      ∧ (extract_bill_data pages).data.pagewise_line_items =
          pages.filterMap (fun pc => exOkValue pc.extraction)) := by
  constructor
  · intro pages hex
    rcases processPages_error_mem pages hex with ⟨e, he⟩
    unfold extract_bill_data
    rw [he]
    exact ⟨rfl, rfl⟩
  · intro pages hall
    unfold extract_bill_data
    rw [processPages_all_ok pages hall]
    exact ⟨rfl, rfl⟩

/-- Claim C1, the claim as frozen, refuted at a concrete three-page
document: page 2's extraction output is unparsable while pages 1 and 3
succeed, yet the final result contains neither page 1's nor page 3's
PageResult — the whole request fails with an empty item list. -/
theorem claim_c1_counterexample :
    pageOne ∉ (extract_bill_data
        [okCtx pageOne, parseFailCtx, okCtx pageThree]).data.pagewise_line_items
    ∧ pageThree ∉ (extract_bill_data
        [okCtx pageOne, parseFailCtx, okCtx pageThree]).data.pagewise_line_items
    ∧ (extract_bill_data
        [okCtx pageOne, parseFailCtx, okCtx pageThree]).is_success = false := by
  have hempty : (extract_bill_data
      [okCtx pageOne, parseFailCtx, okCtx pageThree]).data.pagewise_line_items =
        [] := rfl
  refine ⟨?_, ?_, rfl⟩ <;>
    · intro h
      rw [hempty] at h
      exact List.not_mem_nil _ h

/-- Witness for the amended claim C1 at concrete inputs. -/
theorem claim_c1_witness :
    ((extract_bill_data [okCtx pageOne, parseFailCtx]).is_success = false
      ∧ (extract_bill_data [okCtx pageOne, parseFailCtx]).data.pagewise_line_items = [])
    ∧ ((extract_bill_data [okCtx pageOne, okCtx pageThree]).is_success = true
      ∧ (extract_bill_data
          [okCtx pageOne, okCtx pageThree]).data.pagewise_line_items =
            [okCtx pageOne, okCtx pageThree].filterMap
              (fun pc => exOkValue pc.extraction)) :=
  ⟨claim_c1_amended.1 [okCtx pageOne, parseFailCtx]
      ⟨parseFailCtx, by simp, rfl⟩,
   claim_c1_amended.2 [okCtx pageOne, okCtx pageThree]
      (by rintro pc hpc
          rcases List.mem_cons.mp hpc with rfl | hpc
          · rfl
          · rcases List.mem_cons.mp hpc with rfl | hpc
            · rfl
            · simp at hpc)⟩

end BillApp
